import Mathlib

/-!
Verification development for the balsam transition engine
(`src/balsam/launcher/transitions.py`).

The shallow embedding below translates the state-transition logic of the
transition worker into Lean.  Python job-state values are modelled by
`PyVal` (a Python string, or a tuple of strings: line 384 of the source
assigns a 1-tuple to `job.state` because of a trailing comma, so the
state field must be able to hold a tuple).  Optional string attributes
(`stage_in_url`, `preprocess`, ...) are modelled as `String` with the
empty string playing the role of a falsy value (`None` or `""`), which
matches every truthiness test (`if not job.preprocess: ...`) performed by
the source.  The backing database is modelled as a function from primary
key to persisted state; each worker-cache entry is a pair of the
in-memory job and its `__old_state` tag (the tag is an attribute bolted
onto the job object by `refresh_cache`, modelled here as the second
component of the pair).  Filesystem and subprocess side effects that the
control flow branches on are supplied by explicit environment records;
side effects that no state logic depends on (log writing, directory
creation inside `fast_forward`) are elided.
-/

/-- A Python value that can sit in the `state` field of a job: either a
string or a tuple of strings (the latter arises at source line 384). -/
inductive PyVal where
  | str (s : String)
  | tup (ls : List String)
deriving DecidableEq

/-- The Python exception kinds the transition module can raise that the
claims distinguish: `BalsamTransitionError`, `ValueError` (both handling
flags set), `NameError` (undefined local variable, source line 239) and
`KeyError` (missing key in the `TRANSITIONS` dict). -/
inductive PyError where
  | transitionError (msg : String)
  | valueError (msg : String)
  | nameError (name : String)
  | keyError (name : String)
deriving DecidableEq

/-- The fields of a `BalsamJob` record that the transition engine reads
or writes (source: attribute accesses throughout `transitions.py`). -/
structure Job where
  pk : Nat
  state : PyVal
  working_directory : String
  input_files : String
  stage_in_url : String
  stage_out_url : String
  stage_out_files : String
  preprocess : String
  postprocess : String
  post_error_handler : Bool
  post_timeout_handler : Bool
  auto_timeout_retry : Bool
  wait_for_parents : Bool
  parents : List Nat
deriving DecidableEq

/-- Model of `check_parents` (source lines 165-180).  `env` is the persisted
database state by primary key; `job.get_parents_by_id()` yields
`job.parents` and `parents.filter(state='JOB_FINISHED').count()` counts
the parents whose persisted state is `JOB_FINISHED`. -/
def check_parents (env : Nat → PyVal) (job : Job) : Job :=
  let num_parents := job.parents.length
  let ready : Bool :=
    if num_parents = 0 ∨ job.wait_for_parents = false then true
    else decide (num_parents =
      (job.parents.filter (fun p => decide (env p = PyVal.str "JOB_FINISHED"))).length)
  if ready then { job with state := PyVal.str "READY" }
  else if job.state ≠ PyVal.str "AWAITING_PARENTS" then
    { job with state := PyVal.str "AWAITING_PARENTS" }
  else job

/-- The dependency-check pass of `fast_forward` applied to one job
(source lines 184-186): `check_parents` runs on the jobs whose state is
in `'CREATED AWAITING_PARENTS'.split()`. -/
def dep_check (env : Nat → PyVal) (j : Job) : Job :=
  if j.state = PyVal.str "CREATED" ∨ j.state = PyVal.str "AWAITING_PARENTS" then
    check_parents env j
  else j

/-- The stage-in skip pass of `fast_forward` applied to one job (source
lines 188-198).  The `os.makedirs` side effect does not influence any
state assignment and is elided. -/
def skip_stage_in (j : Job) : Job :=
  if j.state = PyVal.str "READY" then
    let hasParents := j.parents ≠ []
    let hasInput := j.input_files ≠ ""
    let hasRemote := j.stage_in_url ≠ ""
    if ¬ hasRemote ∧ ¬ (hasParents ∧ hasInput) then
      { j with state := PyVal.str "STAGED_IN" }
    else j
  else j

/-- The preprocess skip pass of `fast_forward` applied to one job
(source lines 200-203). -/
def skip_preprocess (j : Job) : Job :=
  if j.state = PyVal.str "STAGED_IN" ∧ j.preprocess = "" then
    { j with state := PyVal.str "PREPROCESSED" }
  else j

/-- The postprocess skip pass of `fast_forward` applied to one job
(source lines 205-207). -/
def skip_postprocess (j : Job) : Job :=
  if j.state = PyVal.str "RUN_DONE" ∧ j.postprocess = "" then
    { j with state := PyVal.str "POSTPROCESSED" }
  else j

/-- The timeout auto-retry pass of `fast_forward` applied to one job
(source lines 209-211). -/
def timeout_retry (j : Job) : Job :=
  if j.state = PyVal.str "RUN_TIMEOUT" ∧ j.auto_timeout_retry = true ∧
      j.post_timeout_handler = false then
    { j with state := PyVal.str "RESTART_READY" }
  else j

/-- The timeout auto-fail pass of `fast_forward` applied to one job
(source lines 213-218). -/
def timeout_fail (j : Job) : Job :=
  if j.state = PyVal.str "RUN_TIMEOUT" ∧ j.auto_timeout_retry = false ∧
      ¬ (j.postprocess ≠ "" ∧ j.post_timeout_handler = true) then
    { j with state := PyVal.str "FAILED" }
  else j

/-- The run-error auto-fail pass of `fast_forward` applied to one job
(source lines 220-224). -/
def error_fail (j : Job) : Job :=
  if j.state = PyVal.str "RUN_ERROR" ∧
      ¬ (j.post_error_handler = true ∧ j.postprocess ≠ "") then
    { j with state := PyVal.str "FAILED" }
  else j

/-- The stage-out skip pass of `fast_forward` applied to one job (source
lines 226-230). -/
def skip_stage_out (j : Job) : Job :=
  if j.state = PyVal.str "POSTPROCESSED" ∧
      ¬ (j.stage_out_url ≠ "" ∧ j.stage_out_files ≠ "") then
    { j with state := PyVal.str "JOB_FINISHED" }
  else j

/-- The seven database-independent passes of `fast_forward` composed in
source order (lines 188-230), applied to one job. -/
def ff_after_dep (j : Job) : Job :=
  skip_stage_out (error_fail (timeout_fail (timeout_retry
    (skip_postprocess (skip_preprocess (skip_stage_in j))))))

/-- All eight `fast_forward` passes (lines 184-230) applied to one job:
the dependency check followed by the seven skip passes. -/
def ffJob (env : Nat → PyVal) (j : Job) : Job :=
  ff_after_dep (dep_check env j)

/-- One worker-cache entry: the in-memory job paired with its
`__old_state` tag (set by `refresh_cache`, line 99). -/
abbrev CacheEntry := Job × PyVal

/-- Worker-visible state: the local job cache and the backing database
(persisted job state by primary key). -/
structure WState where
  cache : List CacheEntry
  db : Nat → PyVal

/-- The eight in-order passes of `fast_forward` over the whole cache
(source lines 182-230), before the final bulk write-back.  Each pass is
a loop over the cache mutating only the job's state; the `__old_state`
tag is untouched. -/
def ff_passes (env : Nat → PyVal) (cache : List CacheEntry) : List CacheEntry :=
  let c1 := cache.map (fun e => (dep_check env e.1, e.2))
  let c2 := c1.map (fun e => (skip_stage_in e.1, e.2))
  let c3 := c2.map (fun e => (skip_preprocess e.1, e.2))
  let c4 := c3.map (fun e => (skip_postprocess e.1, e.2))
  let c5 := c4.map (fun e => (timeout_retry e.1, e.2))
  let c6 := c5.map (fun e => (timeout_fail e.1, e.2))
  let c7 := c6.map (fun e => (error_fail e.1, e.2))
  c7.map (fun e => (skip_stage_out e.1, e.2))

/-- One step of building the `update_jobs` grouping of
`update_states_from_cache` (source line 83): `defaultdict(list)` keyed
by new state, keys in first-appearance order, pks appended in cache
order. -/
def add_update (acc : List (PyVal × List Nat)) (s : PyVal) (pk : Nat) :
    List (PyVal × List Nat) :=
  match acc with
  | [] => [(s, [pk])]
  | (s0, pks) :: rest =>
    if s0 = s then (s0, pks ++ [pk]) :: rest
    else (s0, pks) :: add_update rest s pk

/-- The loop of source lines 81-84 accumulating the `update_jobs`
grouping over the cache. -/
def collect_aux (acc : List (PyVal × List Nat)) :
    List CacheEntry → List (PyVal × List Nat)
  | [] => acc
  | e :: rest =>
    collect_aux (if e.1.state ≠ e.2 then add_update acc e.1.state e.1.pk else acc) rest

/-- The `update_jobs` grouping computed by `update_states_from_cache`
(source lines 80-84): for every cached job whose in-memory state differs
from its `__old_state` tag, its pk grouped under its new state. -/
def collect_updates (cache : List CacheEntry) : List (PyVal × List Nat) :=
  collect_aux [] cache

/-- Model of `BalsamJob.batch_update_state(joblist, newstate)` (consumed store
contract, invoked at source line 88): set the persisted state of every
pk in the list. -/
def batch_update_state (pks : List Nat) (newstate : PyVal) (db : Nat → PyVal) :
    Nat → PyVal :=
  fun p => if p ∈ pks then newstate else db p

/-- The transaction body of source lines 86-88: one
`batch_update_state` per state group, in grouping order. -/
def apply_updates (db : Nat → PyVal) : List (PyVal × List Nat) → (Nat → PyVal)
  | [] => db
  | (s, pks) :: rest => apply_updates (batch_update_state pks s db) rest

/-- Source line 84: after queueing a changed job for write-back its
`__old_state` tag is reset to the current state; unchanged entries are
left alone. -/
def flush_entry (e : CacheEntry) : CacheEntry :=
  if e.1.state ≠ e.2 then (e.1, e.1.state) else e

/-- Model of `update_states_from_cache` (source lines 78-88): compute the changed
jobs grouped by new state, reset their tags, and if any exist apply one
atomic batch update per state group.  Returns the new worker state and
the list of issued batch updates (empty when line 85 returns early
without touching the store). -/
def update_states_from_cache (st : WState) : WState × List (PyVal × List Nat) :=
  let updates := collect_updates st.cache
  (⟨st.cache.map flush_entry, apply_updates st.db updates⟩, updates)

/-- Model of `fast_forward` (source lines 182-231): the eight in-order passes
over the cache followed by the bulk write-back of accumulated state
changes. -/
def fast_forward (st : WState) : WState × List (PyVal × List Nat) :=
  update_states_from_cache ⟨ff_passes st.db st.cache, st.db⟩

/-- Python 3 `round` (round half to even) applied to an exact rational
input.  Source line 93 evaluates `round(num_transitionable/num_threads +
0.5)` in IEEE double arithmetic; this exact-rational model agrees with
the IEEE evaluation whenever the quotient is exactly representable as a
double (as at every input the theorems below evaluate it on, where the
quotient is an integer or a small dyadic). -/
def pyRound (q : ℚ) : ℤ :=
  if q - ⌊q⌋ = 1 / 2 then (if Even ⌊q⌋ then ⌊q⌋ else ⌊q⌋ + 1)
  else round q

/-- The `target_count` of `refresh_cache` (source line 93):
`round(num_transitionable / num_threads + 0.5)`. -/
def target_count (num_transitionable num_threads : ℕ) : ℤ :=
  pyRound ((num_transitionable : ℚ) / (num_threads : ℚ) + 1 / 2)

/-- The `num_to_acquire` of `refresh_cache` (source line 94):
`max(0, target_count - len(job_cache))`. -/
def num_to_acquire (num_transitionable num_threads cache_len : ℕ) : ℤ :=
  max 0 (target_count num_transitionable num_threads - (cache_len : ℤ))

/-- The `refresh_cache` cache mutation (source lines 95-99): extend the
cache with the jobs actually acquired from the store, then reset every
cached job's `__old_state` tag to its current state.  `acquired` is the
list returned by `manager.acquire_transitionable(num_to_acquire)`. -/
def refresh_cache (cache : List CacheEntry) (acquired : List Job) : List CacheEntry :=
  (cache.map Prod.fst ++ acquired).map (fun j => (j, j.state))

/-- Environment of effects for `stage_in` (source lines 234-281):
`path_found` is `os.path.exists`, `transfer_ok` tells whether
`transfer.stage_in` succeeds, `glob_results` is `glob.glob`,
`symlink_ok` tells whether `os.symlink` at the given destination
succeeds, and `parent_dir` is each parent job's `working_directory`. -/
structure StageEnv where
  path_found : String → Bool
  transfer_ok : Bool
  glob_results : String → List String
  symlink_ok : String → Bool
  parent_dir : Nat → String

/-- Model of `os.path.basename` for the forward-slash paths used here. -/
def base_name (p : String) : String :=
  (p.splitOn "/").getLastD p

/-- Python `str.split()` on whitespace (spaces suffice for the patterns
modelled here): split and drop empty pieces. -/
def split_ws (s : String) : List String :=
  (s.split (fun c => c = ' ')).filter (fun w => w ≠ "")

/-- The symlink-creation loop of `stage_in` (source lines 267-278): for
each `(parent_pk, matched_file)`, link `working_directory/basename`
to the match, disambiguating with a parent-pk suffix when the name is
already taken (by a pre-existing file or by a link made earlier in this
loop, tracked in `created`); a failing `os.symlink` is wrapped in a
`BalsamTransitionError`. -/
def make_links (env : StageEnv) (work_dir : String) :
    List String → List (Nat × String) → Except PyError Unit
  | _, [] => .ok ()
  | created, (ppk, inp) :: rest =>
    let bn := base_name inp
    let np0 := work_dir ++ "/" ++ bn
    let np := if env.path_found np0 ∨ np0 ∈ created then
        np0 ++ "_" ++ (toString ppk).take 8
      else np0
    if env.symlink_ok np then make_links env work_dir (np :: created) rest
    else .error (.transitionError "Exception received during symlink")

/-- Model of `stage_in` (source lines 234-281).  Line 238 tests
`os.path.exists(work_dir)`, and when the directory is missing line 239
executes `os.makedirs(workdir)` — but the local variable is named
`work_dir`, and no `workdir` is bound in this function (it is a local of
`fast_forward` only), so Python raises `NameError` there.  Otherwise:
remote transfer when `stage_in_url` is set (failures wrapped as
transition errors), glob the parents' working directories for the
`input_files` patterns in source order, symlink every match, and set
the state to `STAGED_IN`. -/
def stage_in (env : StageEnv) (job : Job) : Except PyError Job :=
  let work_dir := job.working_directory
  if ¬ env.path_found work_dir then
    .error (.nameError "workdir")
  else
    let transfer_step : Except PyError Unit :=
      if job.stage_in_url ≠ "" ∧ env.transfer_ok = false then
        .error (.transitionError "Exception received during stage_in")
      else .ok ()
    match transfer_step with
    | .error e => .error e
    | .ok _ =>
      let pats := split_ws job.input_files
      let matchList := job.parents.flatMap (fun ppk =>
        pats.flatMap (fun pat =>
          (env.glob_results (env.parent_dir ppk ++ "/" ++ pat)).map
            (fun m => (ppk, m))))
      match make_links env work_dir [] matchList with
      | .error e => .error e
      | .ok _ => .ok { job with state := PyVal.str "STAGED_IN" }

/-- Environment of effects for `postprocess` (source lines 364-436):
`exe_found` is `os.path.exists(postproc_app.split()[0])`, `retcode` is
the result of `proc.wait` (`none` when `Popen`/`wait` raises, e.g. on
timeout), and `db_state` is the persisted job state observed by
`job.refresh_from_db()` at line 423. -/
structure PostEnv where
  exe_found : Bool
  retcode : Option Int
  db_state : PyVal

/-- Model of `postprocess` (source lines 364-436).  Both handling flags set is a
`ValueError`.  With no postprocess command: error-handling mode raises a
transition error; timeout-handling mode sets `RESTART_READY`; otherwise
line 384 executes `job.state = 'POSTPROCESSED',` whose trailing comma
assigns the 1-tuple `('POSTPROCESSED',)` rather than the string.  With a
command: missing executable, subprocess exception and nonzero exit each
raise a transition error; on success the job state is reloaded from the
database, an unrepaired `RUN_ERROR`/`RUN_TIMEOUT` raises a transition
error, and in plain mode the state is forced to `POSTPROCESSED`. -/
def postprocess (env : PostEnv) (job : Job)
    (error_handling timeout_handling : Bool) : Except PyError Job :=
  if error_handling = true ∧ timeout_handling = true then
    .error (.valueError "Both error-handling and timeout-handling is invalid")
  else if job.postprocess = "" then
    if error_handling then
      .error (.transitionError "handle error: no postprocessor found!")
    else if timeout_handling then
      .ok { job with state := PyVal.str "RESTART_READY" }
    else
      .ok { job with state := PyVal.tup ["POSTPROCESSED"] }
  else if env.exe_found = false then
    .error (.transitionError "Postprocessor does not exist on filesystem")
  else
    match env.retcode with
    | none => .error (.transitionError "Postprocess failed")
    | some r =>
      if r ≠ 0 then
        .error (.transitionError "postprocess returned nonzero")
      else
        let reloaded := { job with state := env.db_state }
        if error_handling = true ∧ reloaded.state = PyVal.str "RUN_ERROR" then
          .error (.transitionError "Error handling didn't fix job state: marking FAILED")
        else if timeout_handling = true ∧ reloaded.state = PyVal.str "RUN_TIMEOUT" then
          .error (.transitionError "Timeout handling didn't change job state: marking FAILED")
        else if error_handling = false ∧ timeout_handling = false then
          .ok { reloaded with state := PyVal.str "POSTPROCESSED" }
        else .ok reloaded

/-- The transition pass of `_main` (source lines 146-158) over the
cached jobs, with the dispatched call `TRANSITIONS[job.state](job)`
abstracted as the partial map `tmap` (the real transition functions
perform subprocess and filesystem effects supplied by their own
environments).  A `KeyError` from the dict lookup propagates; a
`BalsamTransitionError` from the transition function marks the job
`FAILED` and the loop continues with the next job; any other exception
propagates and aborts the pass.  `EXIT_FLAG` is modelled as staying
`False` for the whole pass (it only changes on an asynchronous
signal). -/
def transition_pass (tmap : PyVal → Option (Job → Except PyError Job)) :
    List Job → Except PyError (List Job)
  | [] => .ok []
  | job :: rest =>
    match tmap job.state with
    | none => .error (.keyError "TRANSITIONS")
    | some f =>
      match f job with
      | .ok j2 => (transition_pass tmap rest).map (fun out => j2 :: out)
      | .error (.transitionError _) =>
        (transition_pass tmap rest).map
          (fun out => { job with state := PyVal.str "FAILED" } :: out)
      | .error e => .error e

/-- The effect of one iteration of the transition pass on its job, when
the pass reaches it: the transition function's result, or the job marked
`FAILED` when the function raised a transition error. -/
def transition_step (tmap : PyVal → Option (Job → Except PyError Job))
    (job : Job) : Job :=
  match tmap job.state with
  | none => job
  | some f =>
    match f job with
    | .ok j2 => j2
    | .error _ => { job with state := PyVal.str "FAILED" }

/-! ### Basic facts about the per-job fast-forward passes -/

theorem skip_stage_in_fix {j : Job} (h : j.state ≠ PyVal.str "READY") :
    skip_stage_in j = j := by
  unfold skip_stage_in; rw [if_neg h]

theorem skip_preprocess_fix {j : Job} (h : j.state ≠ PyVal.str "STAGED_IN") :
    skip_preprocess j = j := by
  unfold skip_preprocess; rw [if_neg (fun hc => h hc.1)]

theorem skip_postprocess_fix {j : Job} (h : j.state ≠ PyVal.str "RUN_DONE") :
    skip_postprocess j = j := by
  unfold skip_postprocess; rw [if_neg (fun hc => h hc.1)]

theorem timeout_retry_fix {j : Job} (h : j.state ≠ PyVal.str "RUN_TIMEOUT") :
    timeout_retry j = j := by
  unfold timeout_retry; rw [if_neg (fun hc => h hc.1)]

theorem timeout_fail_fix {j : Job} (h : j.state ≠ PyVal.str "RUN_TIMEOUT") :
    timeout_fail j = j := by
  unfold timeout_fail; rw [if_neg (fun hc => h hc.1)]

theorem error_fail_fix {j : Job} (h : j.state ≠ PyVal.str "RUN_ERROR") :
    error_fail j = j := by
  unfold error_fail; rw [if_neg (fun hc => h hc.1)]

theorem skip_stage_out_fix {j : Job} (h : j.state ≠ PyVal.str "POSTPROCESSED") :
    skip_stage_out j = j := by
  unfold skip_stage_out; rw [if_neg (fun hc => h hc.1)]

theorem dep_check_fix {env : Nat → PyVal} {j : Job}
    (h1 : j.state ≠ PyVal.str "CREATED") (h2 : j.state ≠ PyVal.str "AWAITING_PARENTS") :
    dep_check env j = j := by
  unfold dep_check; rw [if_neg (fun hc => hc.elim h1 h2)]

/-- Fact: `ff_after_dep` leaves any job alone whose state triggers none of the
seven skip passes. -/
theorem ff_after_dep_fix {j : Job}
    (h1 : j.state ≠ PyVal.str "READY") (h2 : j.state ≠ PyVal.str "STAGED_IN")
    (h3 : j.state ≠ PyVal.str "RUN_DONE") (h4 : j.state ≠ PyVal.str "RUN_TIMEOUT")
    (h5 : j.state ≠ PyVal.str "RUN_ERROR") (h6 : j.state ≠ PyVal.str "POSTPROCESSED") :
    ff_after_dep j = j := by
  unfold ff_after_dep
  rw [skip_stage_in_fix h1, skip_preprocess_fix h2, skip_postprocess_fix h3,
    timeout_retry_fix h4, timeout_fail_fix h4, error_fail_fix h5, skip_stage_out_fix h6]


@[simp]
theorem job_upd_state (j : Job) (s : PyVal) : ({ j with state := s } : Job).state = s :=
  rfl

@[simp]
theorem job_upd_upd (j : Job) (s t : PyVal) :
    ({ ({ j with state := s } : Job) with state := t } : Job) = { j with state := t } :=
  rfl

/-- Evaluation of the seven skip passes on a `READY` job: the stage-in
skip may fire, and if it does the preprocess skip is examined in the
same pass. -/
theorem ff_after_dep_ready {j : Job} (h : j.state = PyVal.str "READY") :
    ff_after_dep j =
      if ¬ (j.stage_in_url ≠ "") ∧ ¬ (j.parents ≠ [] ∧ j.input_files ≠ "") then
        (if j.preprocess = "" then { j with state := PyVal.str "PREPROCESSED" }
         else { j with state := PyVal.str "STAGED_IN" })
      else j := by
  unfold ff_after_dep
  have e0 : skip_stage_in j =
      if ¬ (j.stage_in_url ≠ "") ∧ ¬ (j.parents ≠ [] ∧ j.input_files ≠ "") then
        { j with state := PyVal.str "STAGED_IN" }
      else j := by
    unfold skip_stage_in; rw [if_pos h]
  rw [e0]
  by_cases hc : ¬ (j.stage_in_url ≠ "") ∧ ¬ (j.parents ≠ [] ∧ j.input_files ≠ "")
  · rw [if_pos hc, if_pos hc]
    by_cases hp : j.preprocess = ""
    · rw [if_pos hp]
      have e1 : skip_preprocess { j with state := PyVal.str "STAGED_IN" } =
          { j with state := PyVal.str "PREPROCESSED" } := by
        unfold skip_preprocess; rw [if_pos ⟨rfl, hp⟩]
      rw [e1, skip_postprocess_fix (by simp), timeout_retry_fix (by simp),
        timeout_fail_fix (by simp), error_fail_fix (by simp),
        skip_stage_out_fix (by simp)]
    · rw [if_neg hp]
      have e1 : skip_preprocess { j with state := PyVal.str "STAGED_IN" } =
          { j with state := PyVal.str "STAGED_IN" } := by
        unfold skip_preprocess; rw [if_neg (fun hx => hp hx.2)]
      rw [e1, skip_postprocess_fix (by simp), timeout_retry_fix (by simp),
        timeout_fail_fix (by simp), error_fail_fix (by simp),
        skip_stage_out_fix (by simp)]
  · rw [if_neg hc, if_neg hc,
      skip_preprocess_fix (by rw [h]; decide), skip_postprocess_fix (by rw [h]; decide),
      timeout_retry_fix (by rw [h]; decide), timeout_fail_fix (by rw [h]; decide),
      error_fail_fix (by rw [h]; decide), skip_stage_out_fix (by rw [h]; decide)]

/-- Evaluation of the seven skip passes on a `STAGED_IN` job. -/
theorem ff_after_dep_staged {j : Job} (h : j.state = PyVal.str "STAGED_IN") :
    ff_after_dep j =
      if j.preprocess = "" then { j with state := PyVal.str "PREPROCESSED" } else j := by
  unfold ff_after_dep
  rw [skip_stage_in_fix (by rw [h]; simp)]
  by_cases hp : j.preprocess = ""
  · have e1 : skip_preprocess j = { j with state := PyVal.str "PREPROCESSED" } := by
      unfold skip_preprocess; rw [if_pos ⟨h, hp⟩]
    rw [if_pos hp, e1, skip_postprocess_fix (by simp), timeout_retry_fix (by simp),
      timeout_fail_fix (by simp), error_fail_fix (by simp), skip_stage_out_fix (by simp)]
  · have e1 : skip_preprocess j = j := by
      unfold skip_preprocess; rw [if_neg (fun hx => hp hx.2)]
    rw [if_neg hp, e1, skip_postprocess_fix (by rw [h]; simp),
      timeout_retry_fix (by rw [h]; simp), timeout_fail_fix (by rw [h]; simp),
      error_fail_fix (by rw [h]; simp), skip_stage_out_fix (by rw [h]; simp)]

/-- Evaluation of the seven skip passes on a `RUN_DONE` job: the
postprocess skip may fire, and if it does the stage-out skip is examined
in the same pass. -/
theorem ff_after_dep_rundone {j : Job} (h : j.state = PyVal.str "RUN_DONE") :
    ff_after_dep j =
      if j.postprocess = "" then
        (if ¬ (j.stage_out_url ≠ "" ∧ j.stage_out_files ≠ "") then
          { j with state := PyVal.str "JOB_FINISHED" }
         else { j with state := PyVal.str "POSTPROCESSED" })
      else j := by
  unfold ff_after_dep
  rw [skip_stage_in_fix (by rw [h]; simp), skip_preprocess_fix (by rw [h]; simp)]
  by_cases hp : j.postprocess = ""
  · have e1 : skip_postprocess j = { j with state := PyVal.str "POSTPROCESSED" } := by
      unfold skip_postprocess; rw [if_pos ⟨h, hp⟩]
    rw [if_pos hp, e1, timeout_retry_fix (by simp), timeout_fail_fix (by simp),
      error_fail_fix (by simp)]
    by_cases ho : ¬ (j.stage_out_url ≠ "" ∧ j.stage_out_files ≠ "")
    · have e2 : skip_stage_out { j with state := PyVal.str "POSTPROCESSED" } =
          { j with state := PyVal.str "JOB_FINISHED" } := by
        unfold skip_stage_out; rw [if_pos ⟨by simp, ho⟩]
      rw [e2, if_pos ho]
    · have e2 : skip_stage_out { j with state := PyVal.str "POSTPROCESSED" } =
          { j with state := PyVal.str "POSTPROCESSED" } := by
        unfold skip_stage_out; rw [if_neg (fun hx => ho hx.2)]
      rw [e2, if_neg ho]
  · have e1 : skip_postprocess j = j := by
      unfold skip_postprocess; rw [if_neg (fun hx => hp hx.2)]
    rw [if_neg hp, e1, timeout_retry_fix (by rw [h]; simp), timeout_fail_fix (by rw [h]; simp),
      error_fail_fix (by rw [h]; simp), skip_stage_out_fix (by rw [h]; simp)]

/-- Evaluation of the seven skip passes on a `RUN_TIMEOUT` job. -/
theorem ff_after_dep_timeout {j : Job} (h : j.state = PyVal.str "RUN_TIMEOUT") :
    ff_after_dep j =
      if j.auto_timeout_retry = true ∧ j.post_timeout_handler = false then
        { j with state := PyVal.str "RESTART_READY" }
      else if j.auto_timeout_retry = false ∧
          ¬ (j.postprocess ≠ "" ∧ j.post_timeout_handler = true) then
        { j with state := PyVal.str "FAILED" }
      else j := by
  unfold ff_after_dep
  rw [skip_stage_in_fix (by rw [h]; simp), skip_preprocess_fix (by rw [h]; simp),
    skip_postprocess_fix (by rw [h]; simp)]
  by_cases hr : j.auto_timeout_retry = true ∧ j.post_timeout_handler = false
  · have e1 : timeout_retry j = { j with state := PyVal.str "RESTART_READY" } := by
      unfold timeout_retry; rw [if_pos ⟨h, hr.1, hr.2⟩]
    rw [if_pos hr, e1, timeout_fail_fix (by simp), error_fail_fix (by simp),
      skip_stage_out_fix (by simp)]
  · have e1 : timeout_retry j = j := by
      unfold timeout_retry; rw [if_neg (fun hx => hr ⟨hx.2.1, hx.2.2⟩)]
    rw [if_neg hr, e1]
    by_cases hf : j.auto_timeout_retry = false ∧
        ¬ (j.postprocess ≠ "" ∧ j.post_timeout_handler = true)
    · have e2 : timeout_fail j = { j with state := PyVal.str "FAILED" } := by
        unfold timeout_fail; rw [if_pos ⟨h, hf.1, hf.2⟩]
      rw [if_pos hf, e2, error_fail_fix (by simp), skip_stage_out_fix (by simp)]
    · have e2 : timeout_fail j = j := by
        unfold timeout_fail; rw [if_neg (fun hx => hf ⟨hx.2.1, hx.2.2⟩)]
      rw [if_neg hf, e2, error_fail_fix (by rw [h]; simp), skip_stage_out_fix (by rw [h]; simp)]

/-- Evaluation of the seven skip passes on a `RUN_ERROR` job. -/
theorem ff_after_dep_runerror {j : Job} (h : j.state = PyVal.str "RUN_ERROR") :
    ff_after_dep j =
      if ¬ (j.post_error_handler = true ∧ j.postprocess ≠ "") then
        { j with state := PyVal.str "FAILED" }
      else j := by
  unfold ff_after_dep
  rw [skip_stage_in_fix (by rw [h]; simp), skip_preprocess_fix (by rw [h]; simp),
    skip_postprocess_fix (by rw [h]; simp), timeout_retry_fix (by rw [h]; simp),
    timeout_fail_fix (by rw [h]; simp)]
  by_cases he : ¬ (j.post_error_handler = true ∧ j.postprocess ≠ "")
  · have e1 : error_fail j = { j with state := PyVal.str "FAILED" } := by
      unfold error_fail; rw [if_pos ⟨h, he⟩]
    rw [if_pos he, e1, skip_stage_out_fix (by simp)]
  · have e1 : error_fail j = j := by
      unfold error_fail; rw [if_neg (fun hx => he hx.2)]
    rw [if_neg he, e1, skip_stage_out_fix (by rw [h]; simp)]

/-- Evaluation of the seven skip passes on a `POSTPROCESSED` job. -/
theorem ff_after_dep_post {j : Job} (h : j.state = PyVal.str "POSTPROCESSED") :
    ff_after_dep j =
      if ¬ (j.stage_out_url ≠ "" ∧ j.stage_out_files ≠ "") then
        { j with state := PyVal.str "JOB_FINISHED" }
      else j := by
  unfold ff_after_dep
  rw [skip_stage_in_fix (by rw [h]; simp), skip_preprocess_fix (by rw [h]; simp),
    skip_postprocess_fix (by rw [h]; simp), timeout_retry_fix (by rw [h]; simp),
    timeout_fail_fix (by rw [h]; simp), error_fail_fix (by rw [h]; simp)]
  by_cases ho : ¬ (j.stage_out_url ≠ "" ∧ j.stage_out_files ≠ "")
  · have e1 : skip_stage_out j = { j with state := PyVal.str "JOB_FINISHED" } := by
      unfold skip_stage_out; rw [if_pos ⟨h, ho⟩]
    rw [if_pos ho, e1]
  · have e1 : skip_stage_out j = j := by
      unfold skip_stage_out; rw [if_neg (fun hx => ho hx.2)]
    rw [if_neg ho, e1]

@[simp]
theorem job_upd_preprocess (j : Job) (s : PyVal) :
    ({ j with state := s } : Job).preprocess = j.preprocess := rfl

@[simp]
theorem job_upd_postprocess (j : Job) (s : PyVal) :
    ({ j with state := s } : Job).postprocess = j.postprocess := rfl

@[simp]
theorem job_upd_auto_retry (j : Job) (s : PyVal) :
    ({ j with state := s } : Job).auto_timeout_retry = j.auto_timeout_retry := rfl

@[simp]
theorem job_upd_timeout_handler (j : Job) (s : PyVal) :
    ({ j with state := s } : Job).post_timeout_handler = j.post_timeout_handler := rfl

@[simp]
theorem job_upd_error_handler (j : Job) (s : PyVal) :
    ({ j with state := s } : Job).post_error_handler = j.post_error_handler := rfl

@[simp]
theorem job_upd_out_url (j : Job) (s : PyVal) :
    ({ j with state := s } : Job).stage_out_url = j.stage_out_url := rfl

@[simp]
theorem job_upd_out_files (j : Job) (s : PyVal) :
    ({ j with state := s } : Job).stage_out_files = j.stage_out_files := rfl

@[simp]
theorem job_upd_in_url (j : Job) (s : PyVal) :
    ({ j with state := s } : Job).stage_in_url = j.stage_in_url := rfl

@[simp]
theorem job_upd_input_files (j : Job) (s : PyVal) :
    ({ j with state := s } : Job).input_files = j.input_files := rfl

@[simp]
theorem job_upd_parents (j : Job) (s : PyVal) :
    ({ j with state := s } : Job).parents = j.parents := rfl

@[simp]
theorem job_upd_wait (j : Job) (s : PyVal) :
    ({ j with state := s } : Job).wait_for_parents = j.wait_for_parents := rfl

@[simp]
theorem job_upd_pk (j : Job) (s : PyVal) :
    ({ j with state := s } : Job).pk = j.pk := rfl

/-- The seven skip passes are idempotent: a second run of the
database-independent part of `fast_forward` moves no job further. -/
theorem ff_after_dep_idem (j : Job) : ff_after_dep (ff_after_dep j) = ff_after_dep j := by
  by_cases h1 : j.state = PyVal.str "READY"
  · rw [ff_after_dep_ready h1]
    by_cases hc : ¬ (j.stage_in_url ≠ "") ∧ ¬ (j.parents ≠ [] ∧ j.input_files ≠ "")
    · rw [if_pos hc]
      by_cases hp : j.preprocess = ""
      · rw [if_pos hp]
        exact ff_after_dep_fix (by simp) (by simp) (by simp) (by simp) (by simp) (by simp)
      · rw [if_neg hp, ff_after_dep_staged (by simp)]
        simp [hp]
    · rw [if_neg hc, ff_after_dep_ready h1, if_neg hc]
  · by_cases h2 : j.state = PyVal.str "STAGED_IN"
    · rw [ff_after_dep_staged h2]
      by_cases hp : j.preprocess = ""
      · rw [if_pos hp]
        exact ff_after_dep_fix (by simp) (by simp) (by simp) (by simp) (by simp) (by simp)
      · rw [if_neg hp, ff_after_dep_staged h2, if_neg hp]
    · by_cases h3 : j.state = PyVal.str "RUN_DONE"
      · rw [ff_after_dep_rundone h3]
        by_cases hp : j.postprocess = ""
        · rw [if_pos hp]
          by_cases ho : j.stage_out_url ≠ "" ∧ j.stage_out_files ≠ ""
          · rw [if_neg (not_not_intro ho), ff_after_dep_post (by simp)]
            simp [ho]
          · rw [if_pos ho]
            exact ff_after_dep_fix (by simp) (by simp) (by simp) (by simp) (by simp) (by simp)
        · rw [if_neg hp, ff_after_dep_rundone h3, if_neg hp]
      · by_cases h4 : j.state = PyVal.str "RUN_TIMEOUT"
        · rw [ff_after_dep_timeout h4]
          by_cases hr : j.auto_timeout_retry = true ∧ j.post_timeout_handler = false
          · rw [if_pos hr]
            exact ff_after_dep_fix (by simp) (by simp) (by simp) (by simp) (by simp) (by simp)
          · rw [if_neg hr]
            by_cases hf : j.auto_timeout_retry = false ∧
                ¬ (j.postprocess ≠ "" ∧ j.post_timeout_handler = true)
            · rw [if_pos hf]
              exact ff_after_dep_fix (by simp) (by simp) (by simp) (by simp) (by simp) (by simp)
            · rw [if_neg hf, ff_after_dep_timeout h4, if_neg hr, if_neg hf]
        · by_cases h5 : j.state = PyVal.str "RUN_ERROR"
          · rw [ff_after_dep_runerror h5]
            by_cases he : j.post_error_handler = true ∧ j.postprocess ≠ ""
            · rw [if_neg (not_not_intro he), ff_after_dep_runerror h5,
                if_neg (not_not_intro he)]
            · rw [if_pos he]
              exact ff_after_dep_fix (by simp) (by simp) (by simp) (by simp) (by simp) (by simp)
          · by_cases h6 : j.state = PyVal.str "POSTPROCESSED"
            · rw [ff_after_dep_post h6]
              by_cases ho : j.stage_out_url ≠ "" ∧ j.stage_out_files ≠ ""
              · rw [if_neg (not_not_intro ho), ff_after_dep_post h6,
                  if_neg (not_not_intro ho)]
              · rw [if_pos ho]
                exact ff_after_dep_fix (by simp) (by simp) (by simp) (by simp) (by simp) (by simp)
            · rw [ff_after_dep_fix h1 h2 h3 h4 h5 h6, ff_after_dep_fix h1 h2 h3 h4 h5 h6]

/-- A filter keeps the whole list exactly when every element satisfies
the predicate (the counting argument behind `check_parents`). -/
theorem length_filter_eq_iff {l : List Nat} {p : Nat → Bool} :
    (l.filter p).length = l.length ↔ ∀ x ∈ l, p x = true := by
  induction l with
  | nil => simp
  | cons a t ih =>
    by_cases hpa : p a = true
    · simp [List.filter_cons, hpa, ih]
    · simp only [List.filter_cons, hpa, if_neg, Bool.false_eq_true, not_false_eq_true,
        ite_false, List.length_cons]
      constructor
      · intro hlen
        exact absurd hlen (Nat.ne_of_lt (Nat.lt_succ_of_le (List.length_filter_le p t)))
      · intro hall
        exact absurd (hall a (by simp)) hpa

/-- Evaluation of `check_parents` on a job that is not waiting on anybody: `READY`. -/
theorem check_parents_no_wait {env : Nat → PyVal} {job : Job}
    (h : job.parents = [] ∨ job.wait_for_parents = false) :
    check_parents env job = { job with state := PyVal.str "READY" } := by
  have hcond : job.parents.length = 0 ∨ job.wait_for_parents = false := by
    rcases h with h | h
    · exact Or.inl (by simp [h])
    · exact Or.inr h
  unfold check_parents
  dsimp only
  rw [if_pos hcond, if_pos rfl]

/-- Evaluation of `check_parents` on a waiting job whose parents have all finished:
`READY`. -/
theorem check_parents_finished {env : Nat → PyVal} {job : Job}
    (h1 : job.parents ≠ []) (h2 : job.wait_for_parents = true)
    (h3 : ∀ p ∈ job.parents, env p = PyVal.str "JOB_FINISHED") :
    check_parents env job = { job with state := PyVal.str "READY" } := by
  have hcond : ¬ (job.parents.length = 0 ∨ job.wait_for_parents = false) := by
    rintro (h | h)
    · exact h1 (List.length_eq_zero.mp h)
    · rw [h2] at h; exact Bool.noConfusion h
  have hready : job.parents.length =
      (job.parents.filter (fun p => decide (env p = PyVal.str "JOB_FINISHED"))).length := by
    rw [eq_comm, length_filter_eq_iff]
    intro x hx
    simpa using h3 x hx
  unfold check_parents
  dsimp only
  rw [if_neg hcond, if_pos (decide_eq_true hready)]

/-- Evaluation of `check_parents` on a waiting job with an unfinished parent: the job
goes to (or stays in) `AWAITING_PARENTS`. -/
theorem check_parents_unfinished {env : Nat → PyVal} {job : Job}
    (h1 : job.parents ≠ []) (h2 : job.wait_for_parents = true)
    (h3 : ¬ ∀ p ∈ job.parents, env p = PyVal.str "JOB_FINISHED") :
    check_parents env job =
      if job.state ≠ PyVal.str "AWAITING_PARENTS" then
        { job with state := PyVal.str "AWAITING_PARENTS" }
      else job := by
  have hcond : ¬ (job.parents.length = 0 ∨ job.wait_for_parents = false) := by
    rintro (h | h)
    · exact h1 (List.length_eq_zero.mp h)
    · rw [h2] at h; exact Bool.noConfusion h
  have hready : ¬ (job.parents.length =
      (job.parents.filter (fun p => decide (env p = PyVal.str "JOB_FINISHED"))).length) := by
    intro heq
    apply h3
    intro p hp
    have hx := (length_filter_eq_iff.mp heq.symm) p hp
    simpa using hx
  unfold check_parents
  dsimp only
  rw [if_neg hcond, if_neg (fun hc => hready (of_decide_eq_true hc))]

/-- Every outcome of the seven skip passes: either the job is untouched
or exactly its state is overwritten with one of the six states those
passes assign. -/
theorem ff_after_dep_cases (j : Job) :
    ff_after_dep j = j ∨
    ∃ c : String,
      (c = "STAGED_IN" ∨ c = "PREPROCESSED" ∨ c = "POSTPROCESSED" ∨
       c = "RESTART_READY" ∨ c = "FAILED" ∨ c = "JOB_FINISHED") ∧
      ff_after_dep j = { j with state := PyVal.str c } := by
  by_cases h1 : j.state = PyVal.str "READY"
  · rw [ff_after_dep_ready h1]
    by_cases hc : ¬ (j.stage_in_url ≠ "") ∧ ¬ (j.parents ≠ [] ∧ j.input_files ≠ "")
    · rw [if_pos hc]
      by_cases hp : j.preprocess = ""
      · rw [if_pos hp]
        exact Or.inr ⟨"PREPROCESSED", by simp, rfl⟩
      · rw [if_neg hp]
        exact Or.inr ⟨"STAGED_IN", by simp, rfl⟩
    · rw [if_neg hc]; exact Or.inl rfl
  · by_cases h2 : j.state = PyVal.str "STAGED_IN"
    · rw [ff_after_dep_staged h2]
      by_cases hp : j.preprocess = ""
      · rw [if_pos hp]; exact Or.inr ⟨"PREPROCESSED", by simp, rfl⟩
      · rw [if_neg hp]; exact Or.inl rfl
    · by_cases h3 : j.state = PyVal.str "RUN_DONE"
      · rw [ff_after_dep_rundone h3]
        by_cases hp : j.postprocess = ""
        · rw [if_pos hp]
          by_cases ho : ¬ (j.stage_out_url ≠ "" ∧ j.stage_out_files ≠ "")
          · rw [if_pos ho]; exact Or.inr ⟨"JOB_FINISHED", by simp, rfl⟩
          · rw [if_neg ho]; exact Or.inr ⟨"POSTPROCESSED", by simp, rfl⟩
        · rw [if_neg hp]; exact Or.inl rfl
      · by_cases h4 : j.state = PyVal.str "RUN_TIMEOUT"
        · rw [ff_after_dep_timeout h4]
          by_cases hr : j.auto_timeout_retry = true ∧ j.post_timeout_handler = false
          · rw [if_pos hr]; exact Or.inr ⟨"RESTART_READY", by simp, rfl⟩
          · rw [if_neg hr]
            by_cases hf : j.auto_timeout_retry = false ∧
                ¬ (j.postprocess ≠ "" ∧ j.post_timeout_handler = true)
            · rw [if_pos hf]; exact Or.inr ⟨"FAILED", by simp, rfl⟩
            · rw [if_neg hf]; exact Or.inl rfl
        · by_cases h5 : j.state = PyVal.str "RUN_ERROR"
          · rw [ff_after_dep_runerror h5]
            by_cases he : ¬ (j.post_error_handler = true ∧ j.postprocess ≠ "")
            · rw [if_pos he]; exact Or.inr ⟨"FAILED", by simp, rfl⟩
            · rw [if_neg he]; exact Or.inl rfl
          · by_cases h6 : j.state = PyVal.str "POSTPROCESSED"
            · rw [ff_after_dep_post h6]
              by_cases ho : ¬ (j.stage_out_url ≠ "" ∧ j.stage_out_files ≠ "")
              · rw [if_pos ho]; exact Or.inr ⟨"JOB_FINISHED", by simp, rfl⟩
              · rw [if_neg ho]; exact Or.inl rfl
            · rw [ff_after_dep_fix h1 h2 h3 h4 h5 h6]; exact Or.inl rfl

/-- Every outcome of the dependency-check pass: the job untouched, or
exactly its state overwritten with `READY` or `AWAITING_PARENTS`. -/
theorem dep_check_cases (env : Nat → PyVal) (j : Job) :
    dep_check env j = j ∨
    dep_check env j = { j with state := PyVal.str "READY" } ∨
    dep_check env j = { j with state := PyVal.str "AWAITING_PARENTS" } := by
  unfold dep_check check_parents
  dsimp only
  split_ifs <;> simp

/-- The seven skip passes touch only the state field. -/
theorem ff_after_dep_frame (j : Job) :
    (ff_after_dep j).parents = j.parents ∧ (ff_after_dep j).pk = j.pk ∧
    (ff_after_dep j).wait_for_parents = j.wait_for_parents := by
  rcases ff_after_dep_cases j with h | ⟨c, _, h⟩ <;> rw [h] <;> simp

/-- The dependency check touches only the state field. -/
theorem dep_check_frame (env : Nat → PyVal) (j : Job) :
    (dep_check env j).parents = j.parents ∧ (dep_check env j).pk = j.pk ∧
    (dep_check env j).wait_for_parents = j.wait_for_parents := by
  rcases dep_check_cases env j with h | h | h <;> rw [h] <;> simp

/-- One full fast-forward per-job step touches only the state field. -/
theorem ffJob_frame (env : Nat → PyVal) (j : Job) :
    (ffJob env j).parents = j.parents ∧ (ffJob env j).pk = j.pk := by
  unfold ffJob
  obtain ⟨ha1, ha2, _⟩ := ff_after_dep_frame (dep_check env j)
  obtain ⟨hb1, hb2, _⟩ := dep_check_frame env j
  exact ⟨ha1.trans hb1, ha2.trans hb2⟩

/-- After one full per-job fast-forward step, a second dependency check
against any database that agrees with the first on the job's parents
changes nothing: the job either left the dependency states behind or is
still waiting on the same unfinished parent. -/
theorem dep_check_second (env env2 : Nat → PyVal) (j : Job)
    (hagree : ∀ p ∈ j.parents, env2 p = env p) :
    dep_check env2 (ff_after_dep (dep_check env j)) = ff_after_dep (dep_check env j) := by
  by_cases htrig : j.state = PyVal.str "CREATED" ∨ j.state = PyVal.str "AWAITING_PARENTS"
  · have hd : dep_check env j = check_parents env j := by
      unfold dep_check; rw [if_pos htrig]
    by_cases hw : j.parents = [] ∨ j.wait_for_parents = false
    · rw [hd, check_parents_no_wait hw]
      rcases ff_after_dep_cases { j with state := PyVal.str "READY" } with hX | ⟨c, hcs, hX⟩
      · rw [hX]
        exact dep_check_fix (by simp) (by simp)
      · rw [hX]
        refine dep_check_fix ?_ ?_ <;>
          rcases hcs with rfl | rfl | rfl | rfl | rfl | rfl <;> simp
    · push_neg at hw
      obtain ⟨h1, h2⟩ := hw
      have h2t : j.wait_for_parents = true := by
        cases hb : j.wait_for_parents
        · exact absurd hb h2
        · rfl
      by_cases hall : ∀ p ∈ j.parents, env p = PyVal.str "JOB_FINISHED"
      · rw [hd, check_parents_finished h1 h2t hall]
        rcases ff_after_dep_cases { j with state := PyVal.str "READY" } with hX | ⟨c, hcs, hX⟩
        · rw [hX]
          exact dep_check_fix (by simp) (by simp)
        · rw [hX]
          refine dep_check_fix ?_ ?_ <;>
            rcases hcs with rfl | rfl | rfl | rfl | rfl | rfl <;> simp
      · have hall2 : ¬ ∀ p ∈ j.parents, env2 p = PyVal.str "JOB_FINISHED" := by
          intro hx
          exact hall (fun p hp => (hagree p hp).symm.trans (hx p hp))
        rw [hd, check_parents_unfinished h1 h2t hall]
        by_cases hAW : j.state ≠ PyVal.str "AWAITING_PARENTS"
        · rw [if_pos hAW,
            ff_after_dep_fix (by simp) (by simp) (by simp) (by simp) (by simp) (by simp)]
          have hd2 : dep_check env2 { j with state := PyVal.str "AWAITING_PARENTS" } =
              check_parents env2 { j with state := PyVal.str "AWAITING_PARENTS" } := by
            unfold dep_check
            rw [if_pos (Or.inr (by simp))]
          rw [hd2, check_parents_unfinished (by simpa using h1) (by simpa using h2t)
            (by simpa using hall2), if_neg (by simp)]
        · rw [if_neg hAW]
          push_neg at hAW
          rw [ff_after_dep_fix (by rw [hAW]; simp) (by rw [hAW]; simp) (by rw [hAW]; simp)
            (by rw [hAW]; simp) (by rw [hAW]; simp) (by rw [hAW]; simp)]
          have hd2 : dep_check env2 j = check_parents env2 j := by
            unfold dep_check; rw [if_pos (Or.inr hAW)]
          rw [hd2, check_parents_unfinished h1 h2t hall2, if_neg (not_not_intro hAW)]
  · push_neg at htrig
    obtain ⟨hn1, hn2⟩ := htrig
    rw [dep_check_fix hn1 hn2]
    rcases ff_after_dep_cases j with hX | ⟨c, hcs, hX⟩
    · rw [hX]
      exact dep_check_fix hn1 hn2
    · rw [hX]
      refine dep_check_fix ?_ ?_ <;>
        rcases hcs with rfl | rfl | rfl | rfl | rfl | rfl <;> simp

/-- Per-job idempotence of fast-forward: a second full per-job step,
against any database that agrees with the first on the job's parents,
reproduces the first step's result exactly. -/
theorem ffJob_idem (env env2 : Nat → PyVal) (j : Job)
    (hagree : ∀ p ∈ j.parents, env2 p = env p) :
    ffJob env2 (ffJob env j) = ffJob env j := by
  unfold ffJob
  rw [dep_check_second env env2 j hagree, ff_after_dep_idem]

/-- All primary keys mentioned by a batch-update grouping. -/
def updatePks (u : List (PyVal × List Nat)) : List Nat :=
  u.flatMap (fun pr => pr.2)

/-- Predicate: `pk` is queued for an update to state `s` in the grouping `u`. -/
def mem_update (u : List (PyVal × List Nat)) (s : PyVal) (pk : Nat) : Prop :=
  ∃ pr ∈ u, pr.1 = s ∧ pk ∈ pr.2

theorem flush_fst (e : CacheEntry) : (flush_entry e).1 = e.1 := by
  unfold flush_entry; split <;> rfl

theorem mem_update_add {acc : List (PyVal × List Nat)} {s0 : PyVal} {p0 : Nat}
    {s : PyVal} {pk : Nat} (h : mem_update (add_update acc s0 p0) s pk) :
    mem_update acc s pk ∨ (s = s0 ∧ pk = p0) := by
  induction acc with
  | nil =>
    obtain ⟨pr, hpr, h1, h2⟩ := h
    simp only [add_update, List.mem_singleton] at hpr
    subst hpr
    simp only [List.mem_singleton] at h2
    exact Or.inr ⟨h1.symm, h2⟩
  | cons hd tl ih =>
    obtain ⟨s1, pks1⟩ := hd
    by_cases hs : s1 = s0
    · simp only [add_update, if_pos hs] at h
      obtain ⟨pr, hpr, h1, h2⟩ := h
      rcases List.mem_cons.mp hpr with rfl | hpr
      · rcases List.mem_append.mp h2 with h2 | h2
        · exact Or.inl ⟨(s1, pks1), List.mem_cons_self _ _, h1, h2⟩
        · simp only [List.mem_singleton] at h2
          exact Or.inr ⟨h1.symm.trans hs, h2⟩
      · exact Or.inl ⟨pr, List.mem_cons_of_mem _ hpr, h1, h2⟩
    · simp only [add_update, if_neg hs] at h
      obtain ⟨pr, hpr, h1, h2⟩ := h
      rcases List.mem_cons.mp hpr with rfl | hpr
      · exact Or.inl ⟨(s1, pks1), List.mem_cons_self _ _, h1, h2⟩
      · rcases ih ⟨pr, hpr, h1, h2⟩ with hm | hm
        · obtain ⟨pr2, hpr2, hh⟩ := hm
          exact Or.inl ⟨pr2, List.mem_cons_of_mem _ hpr2, hh⟩
        · exact Or.inr hm

theorem collect_aux_mem {c : List CacheEntry} :
    ∀ {acc : List (PyVal × List Nat)} {s : PyVal} {pk : Nat},
      mem_update (collect_aux acc c) s pk →
      mem_update acc s pk ∨
        ∃ e ∈ c, e.1.pk = pk ∧ e.1.state = s ∧ e.1.state ≠ e.2 := by
  induction c with
  | nil => intro acc s pk h; exact Or.inl h
  | cons e rest ih =>
    intro acc s pk h
    simp only [collect_aux] at h
    by_cases hch : e.1.state ≠ e.2
    · rw [if_pos hch] at h
      rcases ih h with hm | hm
      · rcases mem_update_add hm with hm2 | hm2
        · exact Or.inl hm2
        · exact Or.inr ⟨e, List.mem_cons_self _ _, hm2.2.symm, hm2.1.symm, hch⟩
      · obtain ⟨e2, he2, hh⟩ := hm
        exact Or.inr ⟨e2, List.mem_cons_of_mem _ he2, hh⟩
    · rw [if_neg hch] at h
      rcases ih h with hm | hm
      · exact Or.inl hm
      · obtain ⟨e2, he2, hh⟩ := hm
        exact Or.inr ⟨e2, List.mem_cons_of_mem _ he2, hh⟩

/-- Characterisation of the queued updates of `update_states_from_cache`:
every queued `(state, pk)` comes from a cached job with that pk whose
in-memory state is that state and differs from its last-observed tag. -/
theorem collect_updates_mem {cache : List CacheEntry} {s : PyVal} {pk : Nat}
    (h : mem_update (collect_updates cache) s pk) :
    ∃ e ∈ cache, e.1.pk = pk ∧ e.1.state = s ∧ e.1.state ≠ e.2 := by
  rcases collect_aux_mem h with hm | hm
  · obtain ⟨pr, hpr, _⟩ := hm
    exact absurd hpr (List.not_mem_nil pr)
  · exact hm

theorem mem_updatePks {u : List (PyVal × List Nat)} {pk : Nat} :
    pk ∈ updatePks u ↔ ∃ s, mem_update u s pk := by
  constructor
  · intro h
    obtain ⟨pr, hpr, hh⟩ := List.mem_flatMap.mp h
    exact ⟨pr.1, pr, hpr, rfl, hh⟩
  · rintro ⟨s, pr, hpr, _, hh⟩
    exact List.mem_flatMap.mpr ⟨pr, hpr, hh⟩

theorem collect_aux_unchanged {c : List CacheEntry}
    (h : ∀ e ∈ c, e.1.state = e.2) :
    ∀ acc, collect_aux acc c = acc := by
  induction c with
  | nil => intro acc; rfl
  | cons e rest ih =>
    intro acc
    simp only [collect_aux]
    rw [if_neg (not_not_intro (h e (List.mem_cons_self _ _)))]
    exact ih (fun e2 he2 => h e2 (List.mem_cons_of_mem _ he2)) acc

/-- A batch-update transaction leaves every pk it does not mention
untouched. -/
theorem apply_updates_not_mem {u : List (PyVal × List Nat)} :
    ∀ {db : Nat → PyVal} {pk : Nat}, pk ∉ updatePks u →
      apply_updates db u pk = db pk := by
  induction u with
  | nil => intro db pk _; rfl
  | cons pr rest ih =>
    intro db pk h
    obtain ⟨s, pks⟩ := pr
    have h1 : pk ∉ pks := fun hx =>
      h (List.mem_flatMap.mpr ⟨(s, pks), List.mem_cons_self _ _, hx⟩)
    have h2 : pk ∉ updatePks rest := fun hx => by
      obtain ⟨pr2, hpr2, hh⟩ := List.mem_flatMap.mp hx
      exact h (List.mem_flatMap.mpr ⟨pr2, List.mem_cons_of_mem _ hpr2, hh⟩)
    simp only [apply_updates]
    rw [ih h2]
    unfold batch_update_state
    rw [if_neg h1]

theorem ff_passes_eq (env : Nat → PyVal) (cache : List CacheEntry) :
    ff_passes env cache = cache.map (fun e => (ffJob env e.1, e.2)) := by
  unfold ff_passes
  simp only [List.map_map]
  rfl

theorem fast_forward_cache (st : WState) :
    (fast_forward st).1.cache =
      st.cache.map (fun e => flush_entry (ffJob st.db e.1, e.2)) := by
  unfold fast_forward update_states_from_cache
  dsimp only
  rw [ff_passes_eq, List.map_map]
  rfl

theorem fast_forward_db (st : WState) :
    (fast_forward st).1.db =
      apply_updates st.db (collect_updates (ff_passes st.db st.cache)) := rfl

/-- The write-back of `fast_forward` only touches the pks of cached
jobs. -/
theorem fast_forward_db_frame (st : WState) {p : Nat}
    (hp : ∀ e ∈ st.cache, e.1.pk ≠ p) :
    (fast_forward st).1.db p = st.db p := by
  rw [fast_forward_db]
  apply apply_updates_not_mem
  intro hmem
  obtain ⟨s, hs⟩ := mem_updatePks.mp hmem
  obtain ⟨e, he, hpk, _, _⟩ := collect_updates_mem hs
  rw [ff_passes_eq] at he
  obtain ⟨e0, he0, rfl⟩ := List.mem_map.mp he
  exact hp e0 he0 (((ffJob_frame st.db e0.1).2).symm.trans hpk)

/-- Two consecutive `fast_forward` passes, when no cached job is a
parent of a cached job: the second pass reproduces the first pass's
states exactly. -/
theorem fast_forward_twice (st : WState)
    (hdisj : ∀ e ∈ st.cache, ∀ e2 ∈ st.cache, ∀ p ∈ e2.1.parents, e.1.pk ≠ p) :
    ((fast_forward (fast_forward st).1).1.cache).map (fun e => e.1.state)
      = ((fast_forward st).1.cache).map (fun e => e.1.state) := by
  rw [fast_forward_cache (fast_forward st).1, fast_forward_cache st,
    List.map_map, List.map_map, List.map_map]
  apply List.map_congr_left
  intro e he
  have hagree : ∀ p ∈ e.1.parents, (fast_forward st).1.db p = st.db p := by
    intro p hpmem
    exact fast_forward_db_frame st (fun e2 he2 => hdisj e2 he2 e he p hpmem)
  simp only [Function.comp_apply, flush_fst]
  exact congrArg Job.state (ffJob_idem st.db (fast_forward st).1.db e.1 hagree)

/-- One extra fixpoint fact: a job whose state triggers none of the
eight passes is untouched by the whole per-job fast-forward step. -/
theorem ffJob_fix {env : Nat → PyVal} {j : Job}
    (h1 : j.state ≠ PyVal.str "CREATED") (h2 : j.state ≠ PyVal.str "AWAITING_PARENTS")
    (h3 : j.state ≠ PyVal.str "READY") (h4 : j.state ≠ PyVal.str "STAGED_IN")
    (h5 : j.state ≠ PyVal.str "RUN_DONE") (h6 : j.state ≠ PyVal.str "RUN_TIMEOUT")
    (h7 : j.state ≠ PyVal.str "RUN_ERROR") (h8 : j.state ≠ PyVal.str "POSTPROCESSED") :
    ffJob env j = j := by
  unfold ffJob
  rw [dep_check_fix h1 h2, ff_after_dep_fix h3 h4 h5 h6 h7 h8]

/-- A fixture job with every optional attribute empty: no commands, no
urls, no files, no parents, no handler flags. -/
def job0 : Job :=
  { pk := 0, state := PyVal.str "CREATED", working_directory := "", input_files := "",
    stage_in_url := "", stage_out_url := "", stage_out_files := "", preprocess := "",
    postprocess := "", post_error_handler := false, post_timeout_handler := false,
    auto_timeout_retry := false, wait_for_parents := false, parents := [] }

/-- Fixture for C1: a finished job with no postprocess command. -/
def c1_env : PostEnv :=
  { exe_found := true, retcode := some 0, db_state := PyVal.str "RUN_DONE" }

def c1_job : Job :=
  { job0 with pk := 11, state := PyVal.str "RUN_DONE" }

/-- C1: for a job with an empty postprocess command, `postprocess` with
both handling flags false returns without error, but the state it
assigns is the 1-tuple `('POSTPROCESSED',)` (trailing comma at source
line 384), not the string `POSTPROCESSED` the claim - and the module's
own state machine - expects. -/
theorem C1_no_postprocess_tuple_state :
    postprocess c1_env c1_job false false =
      Except.ok { c1_job with state := PyVal.tup ["POSTPROCESSED"] } ∧
    PyVal.tup ["POSTPROCESSED"] ≠ PyVal.str "POSTPROCESSED" :=
  ⟨rfl, by decide⟩

/-- Fixture for the C2 counterexample: a job in `AWAITING_PARENTS` with
one parent that is still running, but with `wait_for_parents` unset. -/
def c2_env : Nat → PyVal := fun _ => PyVal.str "RUNNING"

def c2_job : Job :=
  { job0 with
    pk := 21
    state := PyVal.str "AWAITING_PARENTS"
    parents := [7]
    wait_for_parents := false }

/-- C2 counterexample: the dependency check moves an `AWAITING_PARENTS`
job with one (unfinished!) parent straight to `READY`, because
`wait_for_parents` is false - refuting the claim as stated, which
quantifies over every job with at least one parent. -/
theorem C2_counterexample :
    c2_job.parents ≠ [] ∧ c2_job.state = PyVal.str "AWAITING_PARENTS" ∧
    (dep_check c2_env c2_job).state = PyVal.str "READY" ∧
    ¬ (∀ p ∈ c2_job.parents, c2_env p = PyVal.str "JOB_FINISHED") := by
  decide

/-- C2 (amended with `wait_for_parents = true`): the dependency check
moves a waiting job with at least one parent from `AWAITING_PARENTS` to
`READY` exactly when every parent's persisted state is `JOB_FINISHED`,
and never earlier. -/
theorem C2_amended_dependency_exact (env : Nat → PyVal) (j : Job)
    (hpar : j.parents ≠ []) (hwait : j.wait_for_parents = true)
    (hstate : j.state = PyVal.str "AWAITING_PARENTS") :
    (dep_check env j).state = PyVal.str "READY" ↔
      ∀ p ∈ j.parents, env p = PyVal.str "JOB_FINISHED" := by
  have hd : dep_check env j = check_parents env j := by
    unfold dep_check; rw [if_pos (Or.inr hstate)]
  rw [hd]
  constructor
  · intro hready
    by_contra hall
    rw [check_parents_unfinished hpar hwait hall, if_neg (not_not_intro hstate),
      hstate] at hready
    exact absurd hready (by decide)
  · intro hall
    rw [check_parents_finished hpar hwait hall]

def c2w_env : Nat → PyVal := fun _ => PyVal.str "JOB_FINISHED"

def c2w_job : Job :=
  { job0 with
    pk := 22
    state := PyVal.str "AWAITING_PARENTS"
    parents := [3]
    wait_for_parents := true }

theorem C2_amended_witness :
    (c2w_job.parents ≠ [] ∧ c2w_job.wait_for_parents = true ∧
      c2w_job.state = PyVal.str "AWAITING_PARENTS") ∧
    ((dep_check c2w_env c2w_job).state = PyVal.str "READY" ↔
      ∀ p ∈ c2w_job.parents, c2w_env p = PyVal.str "JOB_FINISHED") :=
  ⟨by refine ⟨by decide, by decide, by decide⟩,
   C2_amended_dependency_exact c2w_env c2w_job (by decide) (by decide) (by decide)⟩

/-- Fixture for C6: a job whose working directory does not exist. -/
def c6_env : StageEnv :=
  { path_found := fun _ => false, transfer_ok := true, glob_results := fun _ => [],
    symlink_ok := fun _ => true, parent_dir := fun _ => "" }

def c6_job : Job :=
  { job0 with pk := 61, state := PyVal.str "READY", working_directory := "/w/job61" }

/-- C6: when the working directory does not exist, `stage_in` raises a
`NameError` (source line 239 reads the undefined local `workdir`; the
bound local is `work_dir`), so the directory is never created and the
failure is not a `BalsamTransitionError`. -/
theorem C6_stage_in_name_error :
    stage_in c6_env c6_job = Except.error (PyError.nameError "workdir") := rfl

/-- C8: a `READY` job with no preprocess command, no input files, no
stage-in url and no parents reaches `PREPROCESSED` in a single
fast-forward pass (stage-in skip then preprocess skip, same pass). -/
theorem C8_ready_to_preprocessed (st : WState) (j : Job) (old : PyVal)
    (hcache : st.cache = [(j, old)])
    (hstate : j.state = PyVal.str "READY") (hpre : j.preprocess = "")
    (_hinp : j.input_files = "") (hurl : j.stage_in_url = "") (hpar : j.parents = []) :
    ((fast_forward st).1.cache).map (fun e => e.1.state) = [PyVal.str "PREPROCESSED"] := by
  rw [fast_forward_cache, hcache]
  simp only [List.map_map, List.map_cons, List.map_nil, Function.comp_apply, flush_fst]
  have hff : ffJob st.db j = { j with state := PyVal.str "PREPROCESSED" } := by
    unfold ffJob
    rw [dep_check_fix (by rw [hstate]; decide) (by rw [hstate]; decide),
      ff_after_dep_ready hstate,
      if_pos ⟨fun hx => hx hurl, fun hx => hx.1 hpar⟩, if_pos hpre]
  rw [hff]

def c8_state : WState :=
  ⟨[({ job0 with pk := 81, state := PyVal.str "READY" }, PyVal.str "READY")],
    fun _ => PyVal.str "READY"⟩

theorem C8_witness :
    (c8_state.cache = [({ job0 with pk := 81, state := PyVal.str "READY" },
        PyVal.str "READY")] ∧
      ({ job0 with pk := 81, state := PyVal.str "READY" } : Job).state = PyVal.str "READY") ∧
    ((fast_forward c8_state).1.cache).map (fun e => e.1.state) =
      [PyVal.str "PREPROCESSED"] :=
  ⟨⟨rfl, rfl⟩,
   C8_ready_to_preprocessed c8_state _ _ rfl rfl rfl rfl rfl rfl⟩

/-- C9: a fast-forward pass never changes the state of a cached job in
a terminal state (`FAILED`, `JOB_FINISHED`), and any job whose state it
does change started the pass in one of the eight states its passes
examine. -/
theorem C9_terminal_states_framed (st : WState) :
    List.Forall₂ (fun e e2 : CacheEntry =>
      ((e.1.state = PyVal.str "FAILED" ∨ e.1.state = PyVal.str "JOB_FINISHED") →
        e2.1.state = e.1.state) ∧
      (e2.1.state ≠ e.1.state →
        (e.1.state = PyVal.str "CREATED" ∨ e.1.state = PyVal.str "AWAITING_PARENTS" ∨
         e.1.state = PyVal.str "READY" ∨ e.1.state = PyVal.str "STAGED_IN" ∨
         e.1.state = PyVal.str "RUN_DONE" ∨ e.1.state = PyVal.str "RUN_TIMEOUT" ∨
         e.1.state = PyVal.str "RUN_ERROR" ∨ e.1.state = PyVal.str "POSTPROCESSED")))
      st.cache ((fast_forward st).1.cache) := by
  rw [fast_forward_cache, List.forall₂_map_right_iff, List.forall₂_same]
  intro e _
  constructor
  · intro hterm
    rw [flush_fst]
    rcases hterm with h | h <;>
      rw [ffJob_fix (by rw [h]; decide) (by rw [h]; decide) (by rw [h]; decide)
        (by rw [h]; decide) (by rw [h]; decide) (by rw [h]; decide)
        (by rw [h]; decide) (by rw [h]; decide)]
  · intro hne
    by_contra hnot
    push_neg at hnot
    obtain ⟨g1, g2, g3, g4, g5, g6, g7, g8⟩ := hnot
    apply hne
    rw [flush_fst, ffJob_fix g1 g2 g3 g4 g5 g6 g7 g8]

def c9_state : WState :=
  ⟨[({ job0 with pk := 91, state := PyVal.str "FAILED" }, PyVal.str "FAILED"),
    ({ job0 with pk := 92, state := PyVal.str "RUN_DONE" }, PyVal.str "RUN_DONE")],
    fun _ => PyVal.str "CREATED"⟩

theorem C9_witness :
    List.Forall₂ (fun e e2 : CacheEntry =>
      ((e.1.state = PyVal.str "FAILED" ∨ e.1.state = PyVal.str "JOB_FINISHED") →
        e2.1.state = e.1.state) ∧
      (e2.1.state ≠ e.1.state →
        (e.1.state = PyVal.str "CREATED" ∨ e.1.state = PyVal.str "AWAITING_PARENTS" ∨
         e.1.state = PyVal.str "READY" ∨ e.1.state = PyVal.str "STAGED_IN" ∨
         e.1.state = PyVal.str "RUN_DONE" ∨ e.1.state = PyVal.str "RUN_TIMEOUT" ∨
         e.1.state = PyVal.str "RUN_ERROR" ∨ e.1.state = PyVal.str "POSTPROCESSED")))
      c9_state.cache ((fast_forward c9_state).1.cache) :=
  C9_terminal_states_framed c9_state

/-- C10: `update_states_from_cache` queues an update only for cached
jobs whose in-memory state differs from the last-observed tag; when no
cached job changed it issues no batch update and leaves the store
untouched; and the stored record of every unchanged cached job is left
as it was. -/
theorem C10_writeback_only_changed (st : WState)
    (hnodup : (st.cache.map (fun e => e.1.pk)).Nodup) :
    (∀ s pk, mem_update (update_states_from_cache st).2 s pk →
        ∃ e ∈ st.cache, e.1.pk = pk ∧ e.1.state = s ∧ e.1.state ≠ e.2) ∧
    ((∀ e ∈ st.cache, e.1.state = e.2) →
        (update_states_from_cache st).2 = [] ∧
        (update_states_from_cache st).1.db = st.db) ∧
    (∀ e ∈ st.cache, e.1.state = e.2 →
        (update_states_from_cache st).1.db e.1.pk = st.db e.1.pk) := by
  refine ⟨?_, ?_, ?_⟩
  · intro s pk h
    exact collect_updates_mem h
  · intro hall
    have hcol : collect_updates st.cache = [] := collect_aux_unchanged hall []
    refine ⟨hcol, ?_⟩
    show apply_updates st.db (collect_updates st.cache) = st.db
    rw [hcol]
    rfl
  · intro e he hunch
    show apply_updates st.db (collect_updates st.cache) e.1.pk = st.db e.1.pk
    apply apply_updates_not_mem
    intro hmem
    obtain ⟨s, hs⟩ := mem_updatePks.mp hmem
    obtain ⟨e2, he2, hpk, _, hch⟩ := collect_updates_mem hs
    have hne : e ≠ e2 := fun hx => hch (by rw [← hx]; exact hunch)
    exact hne (List.inj_on_of_nodup_map hnodup he he2 hpk.symm)

def c10_state : WState :=
  ⟨[({ job0 with pk := 101, state := PyVal.str "PREPROCESSED" }, PyVal.str "READY"),
    ({ job0 with pk := 102, state := PyVal.str "RUN_DONE" }, PyVal.str "RUN_DONE")],
    fun _ => PyVal.str "READY"⟩

theorem C10_witness :
    (c10_state.cache.map (fun e => e.1.pk)).Nodup ∧
    (∀ s pk, mem_update (update_states_from_cache c10_state).2 s pk →
        ∃ e ∈ c10_state.cache, e.1.pk = pk ∧ e.1.state = s ∧ e.1.state ≠ e.2) ∧
    ((∀ e ∈ c10_state.cache, e.1.state = e.2) →
        (update_states_from_cache c10_state).2 = [] ∧
        (update_states_from_cache c10_state).1.db = c10_state.db) ∧
    (∀ e ∈ c10_state.cache, e.1.state = e.2 →
        (update_states_from_cache c10_state).1.db e.1.pk = c10_state.db e.1.pk) :=
  ⟨by decide, C10_writeback_only_changed c10_state (by decide)⟩

/-- When every cached job's dispatched transition function exists and
can only fail with a `BalsamTransitionError`, the transition pass
completes and processes every job in order. -/
theorem transition_pass_completes
    (tmap : PyVal → Option (Job → Except PyError Job)) (cache : List Job)
    (H : ∀ j ∈ cache, ∃ f, tmap j.state = some f ∧
        ∀ e, f j = Except.error e → ∃ m, e = PyError.transitionError m) :
    transition_pass tmap cache = Except.ok (cache.map (transition_step tmap)) := by
  induction cache with
  | nil => rfl
  | cons j rest ih =>
    obtain ⟨f, hf, herr⟩ := H j (List.mem_cons_self _ _)
    have hrest := ih (fun j2 hj2 => H j2 (List.mem_cons_of_mem _ hj2))
    cases hres : f j with
    | ok j2 =>
      simp only [transition_pass, hf, hres, hrest, List.map_cons, Except.map,
        transition_step]
    | error e =>
      obtain ⟨m, rfl⟩ := herr e hres
      simp only [transition_pass, hf, hres, hrest, List.map_cons, Except.map,
        transition_step]

/-- C3: in the transition pass, a job whose transition function raises a
`BalsamTransitionError` is set to `FAILED`, the pass continues and every
other job receives exactly its own transition function's result. -/
theorem C3_isolated_failure
    (tmap : PyVal → Option (Job → Except PyError Job)) (cache : List Job)
    (H : ∀ j ∈ cache, ∃ f, tmap j.state = some f ∧
        ∀ e, f j = Except.error e → ∃ m, e = PyError.transitionError m) :
    transition_pass tmap cache = Except.ok (cache.map (transition_step tmap)) ∧
    ∀ j ∈ cache, ∀ f, tmap j.state = some f →
      ((∀ m, f j = Except.error (PyError.transitionError m) →
          transition_step tmap j = { j with state := PyVal.str "FAILED" }) ∧
       (∀ j2, f j = Except.ok j2 → transition_step tmap j = j2)) := by
  refine ⟨transition_pass_completes tmap cache H, ?_⟩
  intro j _ f hf
  constructor
  · intro m hm
    simp only [transition_step, hf, hm]
  · intro j2 hok
    simp only [transition_step, hf, hok]

def c3_fn : Job → Except PyError Job := fun j =>
  if j.pk = 31 then Except.error (PyError.transitionError "boom")
  else Except.ok { j with state := PyVal.str "STAGED_IN" }

def c3_tmap : PyVal → Option (Job → Except PyError Job) := fun s =>
  if s = PyVal.str "READY" then some c3_fn else none

def c3_cache : List Job :=
  [{ job0 with pk := 31, state := PyVal.str "READY" },
   { job0 with pk := 32, state := PyVal.str "READY" }]

theorem C3_witness :
    (∀ j ∈ c3_cache, ∃ f, c3_tmap j.state = some f ∧
        ∀ e, f j = Except.error e → ∃ m, e = PyError.transitionError m) ∧
    (transition_pass c3_tmap c3_cache =
        Except.ok (c3_cache.map (transition_step c3_tmap)) ∧
      ∀ j ∈ c3_cache, ∀ f, c3_tmap j.state = some f →
        ((∀ m, f j = Except.error (PyError.transitionError m) →
            transition_step c3_tmap j = { j with state := PyVal.str "FAILED" }) ∧
         (∀ j2, f j = Except.ok j2 → transition_step c3_tmap j = j2))) := by
  have hH : ∀ j ∈ c3_cache, ∃ f, c3_tmap j.state = some f ∧
      ∀ e, f j = Except.error e → ∃ m, e = PyError.transitionError m := by
    intro j hj
    refine ⟨c3_fn, ?_, ?_⟩
    · rcases List.mem_cons.mp hj with rfl | hj2
      · rfl
      · rcases List.mem_cons.mp hj2 with rfl | hj3
        · rfl
        · exact absurd hj3 (List.not_mem_nil j)
    · intro e he
      unfold c3_fn at he
      by_cases hpk : j.pk = 31
      · rw [if_pos hpk] at he
        exact ⟨"boom", (Except.error.injEq _ _).mp he.symm⟩
      · rw [if_neg hpk] at he
        exact absurd he (by simp)
  exact ⟨hH, C3_isolated_failure c3_tmap c3_cache hH⟩

/-- Fixture for the C4 counterexample: a worker cache holding both a
parent (`RUN_DONE`, no postprocess, no stage-out) and its child
(`AWAITING_PARENTS`, waiting).  The database initially records the
parent as `RUN_DONE`. -/
def c4_parent : Job :=
  { job0 with pk := 1, state := PyVal.str "RUN_DONE" }

def c4_child : Job :=
  { job0 with
    pk := 2
    state := PyVal.str "AWAITING_PARENTS"
    parents := [1]
    wait_for_parents := true }

def c4_state : WState :=
  ⟨[(c4_parent, PyVal.str "RUN_DONE"), (c4_child, PyVal.str "AWAITING_PARENTS")],
    fun p => if p = 1 then PyVal.str "RUN_DONE" else PyVal.str "AWAITING_PARENTS"⟩

/-- C4 counterexample: with a parent and its child in the same cache,
the first fast-forward pass finishes the parent and flushes
`JOB_FINISHED` to the store, so the second pass sees the dependency
satisfied and advances the child - the second pass does change a state,
refuting the claim as stated (no write from outside occurred; the write
between the passes is fast-forward's own write-back at source line
231). -/
theorem C4_counterexample :
    ((fast_forward c4_state).1.cache).map (fun e => e.1.state)
        = [PyVal.str "JOB_FINISHED", PyVal.str "AWAITING_PARENTS"] ∧
    ((fast_forward (fast_forward c4_state).1).1.cache).map (fun e => e.1.state)
        = [PyVal.str "JOB_FINISHED", PyVal.str "PREPROCESSED"] ∧
    ((fast_forward (fast_forward c4_state).1).1.cache).map (fun e => e.1.state)
        ≠ ((fast_forward c4_state).1.cache).map (fun e => e.1.state) := by
  refine ⟨by decide, by decide, by decide⟩

/-- C4 (amended): two consecutive fast-forward passes leave every job's
state unchanged on the second pass, provided no cached job is a parent
of a cached job (the proviso the counterexample forces: fast-forward's
own write-back otherwise changes the parent states the second
dependency check reads). -/
theorem C4_amended_idempotent (st : WState)
    (hdisj : ∀ e ∈ st.cache, ∀ e2 ∈ st.cache, ∀ p ∈ e2.1.parents, e.1.pk ≠ p) :
    ((fast_forward (fast_forward st).1).1.cache).map (fun e => e.1.state)
      = ((fast_forward st).1.cache).map (fun e => e.1.state) :=
  fast_forward_twice st hdisj

def c4w_state : WState :=
  ⟨[({ job0 with pk := 41, state := PyVal.str "RUN_DONE" }, PyVal.str "RUN_DONE"),
    ({ job0 with pk := 42, state := PyVal.str "READY" }, PyVal.str "READY")],
    fun _ => PyVal.str "CREATED"⟩

theorem C4_amended_witness :
    (∀ e ∈ c4w_state.cache, ∀ e2 ∈ c4w_state.cache, ∀ p ∈ e2.1.parents, e.1.pk ≠ p) ∧
    ((fast_forward (fast_forward c4w_state).1).1.cache).map (fun e => e.1.state)
      = ((fast_forward c4w_state).1.cache).map (fun e => e.1.state) :=
  ⟨by decide, C4_amended_idempotent c4w_state (by decide)⟩

/-- C7: when a postprocess command ran and exited 0, `postprocess`
reloads the job's persisted state; in error-handling mode a state still
`RUN_ERROR` (resp. in timeout-handling mode still `RUN_TIMEOUT`) raises
a `BalsamTransitionError` instead of succeeding. -/
theorem C7_unrepaired_state_fails (env : PostEnv) (job : Job)
    (hcmd : job.postprocess ≠ "") (hexe : env.exe_found = true)
    (hret : env.retcode = some 0) :
    (env.db_state = PyVal.str "RUN_ERROR" →
      postprocess env job true false =
        Except.error (PyError.transitionError
          "Error handling didn't fix job state: marking FAILED")) ∧
    (env.db_state = PyVal.str "RUN_TIMEOUT" →
      postprocess env job false true =
        Except.error (PyError.transitionError
          "Timeout handling didn't change job state: marking FAILED")) := by
  constructor
  · intro hdb
    unfold postprocess
    rw [if_neg (by simp), if_neg hcmd, if_neg (by rw [hexe]; simp), hret]
    simp [hdb]
  · intro hdb
    unfold postprocess
    rw [if_neg (by simp), if_neg hcmd, if_neg (by rw [hexe]; simp), hret]
    simp [hdb]

def c7_env : PostEnv :=
  { exe_found := true, retcode := some 0, db_state := PyVal.str "RUN_ERROR" }

def c7_job : Job :=
  { job0 with pk := 71, state := PyVal.str "RUN_ERROR", postprocess := "/bin/post" }

theorem C7_witness :
    (c7_job.postprocess ≠ "" ∧ c7_env.exe_found = true ∧ c7_env.retcode = some 0) ∧
    ((c7_env.db_state = PyVal.str "RUN_ERROR" →
      postprocess c7_env c7_job true false =
        Except.error (PyError.transitionError
          "Error handling didn't fix job state: marking FAILED")) ∧
    (c7_env.db_state = PyVal.str "RUN_TIMEOUT" →
      postprocess c7_env c7_job false true =
        Except.error (PyError.transitionError
          "Timeout handling didn't change job state: marking FAILED"))) :=
  ⟨by refine ⟨by decide, by decide, by decide⟩,
   C7_unrepaired_state_fails c7_env c7_job (by decide) (by decide) (by decide)⟩

/-- C5 counterexample: at one transitionable job and one worker the
computed target share is `round(1/1 + 0.5) = round(1.5) = 2` (Python 3
rounds halves to even), not `ceil(1/1) = 1`; every value in this
evaluation is exactly representable in IEEE doubles, so the
exact-rational model coincides with the source's float arithmetic
here. -/
theorem C5_counterexample :
    target_count 1 1 ≠ Int.ceil ((1 : ℚ) / (1 : ℚ)) ∧
    target_count 1 1 = 2 ∧ Int.ceil ((1 : ℚ) / (1 : ℚ)) = 1 := by
  have h1 : target_count 1 1 = 2 := by
    unfold target_count pyRound
    norm_num
  have h2 : Int.ceil ((1 : ℚ) / (1 : ℚ)) = 1 := by norm_num
  refine ⟨by rw [h1, h2]; decide, h1, h2⟩

/-- C5 (amended): the target share computed at source line 93 equals
`ceil(t/n)` except when `n` divides `t` with an odd quotient, where the
Python 3 round-half-to-even of `t/n + 0.5` gives `t/n + 1`; and on a
refresh the worker requests `max(0, target - len(cache))` jobs, so under
the store contract (acquire returns at most the requested number) it
acquires at most that many additional jobs. -/
theorem C5_amended_target_share (t n : ℕ) (hn : 0 < n) :
    (target_count t n =
      Int.ceil ((t : ℚ) / (n : ℚ)) + (if n ∣ t ∧ ¬ Even (t / n) then 1 else 0)) ∧
    (∀ cache : List CacheEntry, ∀ acquired : List Job,
      (acquired.length : ℤ) ≤ num_to_acquire t n cache.length →
      ((refresh_cache cache acquired).length : ℤ) ≤
        (cache.length : ℤ) + max 0 (target_count t n - (cache.length : ℤ))) := by
  constructor
  · have hn0 : (n : ℚ) ≠ 0 := Nat.cast_ne_zero.mpr hn.ne'
    set k := t / n with hkdef
    set r := t % n with hrdef
    have htkr : n * k + r = t := Nat.div_add_mod t n
    have hrn : r < n := Nat.mod_lt t hn
    have hq : (t : ℚ) / (n : ℚ) = (k : ℚ) + (r : ℚ) / (n : ℚ) := by
      rw [← htkr]
      push_cast
      field_simp
      ring
    by_cases hdvd : n ∣ t
    · have hr0 : r = 0 := Nat.dvd_iff_mod_eq_zero.mp hdvd
      have hq2 : (t : ℚ) / (n : ℚ) = (k : ℚ) := by
        rw [hq, hr0]
        norm_num
      unfold target_count pyRound
      have hfl : ⌊(t : ℚ) / (n : ℚ) + 1 / 2⌋ = (k : ℤ) := by
        apply Int.floor_eq_iff.mpr
        constructor
        · rw [hq2]; push_cast; linarith
        · rw [hq2]; push_cast; linarith
      have htie : (t : ℚ) / (n : ℚ) + 1 / 2 - ⌊(t : ℚ) / (n : ℚ) + 1 / 2⌋ = 1 / 2 := by
        rw [hfl, hq2]
        push_cast
        ring
      rw [if_pos htie, hfl]
      have hceil : ⌈(t : ℚ) / (n : ℚ)⌉ = (k : ℤ) := by
        rw [hq2]
        exact_mod_cast Int.ceil_natCast k
      rw [hceil]
      by_cases hev : Even k
      · rw [if_pos ((Int.even_coe_nat k).mpr hev),
          if_neg (fun hx => hx.2 hev)]
        ring
      · rw [if_neg (fun hx => hev ((Int.even_coe_nat k).mp hx)),
          if_pos ⟨hdvd, hev⟩]
    · have hr0 : r ≠ 0 := fun h => hdvd (Nat.dvd_iff_mod_eq_zero.mpr h)
      have h0 : (0 : ℚ) < (r : ℚ) / (n : ℚ) := by
        apply div_pos
        · exact_mod_cast Nat.pos_of_ne_zero hr0
        · exact_mod_cast hn
      have h1 : (r : ℚ) / (n : ℚ) < 1 := by
        rw [div_lt_one (by exact_mod_cast hn)]
        exact_mod_cast hrn
      unfold target_count pyRound
      have htie : ¬ ((t : ℚ) / (n : ℚ) + 1 / 2 - ⌊(t : ℚ) / (n : ℚ) + 1 / 2⌋ = 1 / 2) := by
        intro htie
        have hqz : (t : ℚ) / (n : ℚ) = ((⌊(t : ℚ) / (n : ℚ) + 1 / 2⌋ : ℤ) : ℚ) := by
          linarith
        rw [hq] at hqz
        have h2 : (r : ℚ) / (n : ℚ) =
            ((⌊(t : ℚ) / (n : ℚ) + 1 / 2⌋ : ℤ) : ℚ) - (k : ℚ) := by linarith
        rw [h2] at h0 h1
        have h3 : (0 : ℤ) < ⌊(t : ℚ) / (n : ℚ) + 1 / 2⌋ - (k : ℤ) := by
          exact_mod_cast h0
        have h4 : ⌊(t : ℚ) / (n : ℚ) + 1 / 2⌋ - (k : ℤ) < 1 := by
          exact_mod_cast h1
        omega
      rw [if_neg htie, round_eq]
      have hfl : ⌊(t : ℚ) / (n : ℚ) + 1 / 2 + 1 / 2⌋ = (k : ℤ) + 1 := by
        apply Int.floor_eq_iff.mpr
        constructor
        · rw [hq]; push_cast; linarith
        · rw [hq]; push_cast; linarith
      rw [hfl]
      have hceil : ⌈(t : ℚ) / (n : ℚ)⌉ = (k : ℤ) + 1 := by
        apply Int.ceil_eq_iff.mpr
        constructor
        · rw [hq]; push_cast; linarith
        · rw [hq]; push_cast; linarith
      rw [hceil, if_neg (fun hx => hdvd hx.1)]
      ring
  · intro cache acquired hle
    have hlen : (refresh_cache cache acquired).length =
        cache.length + acquired.length := by
      unfold refresh_cache
      simp
    rw [hlen]
    unfold num_to_acquire at hle
    push_cast
    linarith

theorem C5_witness :
    0 < 2 ∧
    ((target_count 5 2 =
        Int.ceil ((5 : ℚ) / (2 : ℚ)) + (if 2 ∣ 5 ∧ ¬ Even (5 / 2) then 1 else 0)) ∧
     (∀ cache : List CacheEntry, ∀ acquired : List Job,
        (acquired.length : ℤ) ≤ num_to_acquire 5 2 cache.length →
        ((refresh_cache cache acquired).length : ℤ) ≤
          (cache.length : ℤ) + max 0 (target_count 5 2 - (cache.length : ℤ)))) :=
  ⟨by decide, C5_amended_target_share 5 2 (by decide)⟩
